import Mathlib

/-
  Verification development for the portfolio-website interaction core
  (src/main.js): camera flight choreography, proximity fade, pointer
  gesture classification, hover highlighting.

  Shallow embedding conventions:
  - three.js Vector3 components are modelled as rationals (exact
    arithmetic over the real-number intent of the code).
  - `Vector3.normalize` divides by `length() || 1`; since a Euclidean
    length is generally irrational, normalisation is parametrised by the
    length value (callers supply it; counterexamples supply a concrete
    rational length together with a proof that its square is the squared
    norm).
  - Wall-clock quantities that feed transcendental functions (the sine
    pulse) and the camera-to-anchor Euclidean distance enter the frame
    step as oracle inputs.
-/

namespace Portfolio

/-- A 3-component vector, mirroring THREE.Vector3 as used by main.js. -/
structure Vec3 where
  x : ℚ
  y : ℚ
  z : ℚ
deriving DecidableEq, Repr

def Vec3.add (a b : Vec3) : Vec3 := ⟨a.x + b.x, a.y + b.y, a.z + b.z⟩

def Vec3.smul (c : ℚ) (a : Vec3) : Vec3 := ⟨c * a.x, c * a.y, c * a.z⟩

/-- Squared Euclidean norm (`lengthSq` in three.js). -/
def Vec3.normSq (a : Vec3) : ℚ := a.x * a.x + a.y * a.y + a.z * a.z

/-- Embeds `v.normalize()` from three.js, which is `v.divideScalar(v.length() || 1)`,
and `divideScalar(s)` is `multiplyScalar(1 / s)`.  The length is passed
in as a parameter `len` (legitimate calls supply the Euclidean length of
`v`, which satisfies `len * len = v.normSq` and `0 ≤ len`). -/
def v3normalizeW (v : Vec3) (len : ℚ) : Vec3 :=
  Vec3.smul (1 / (if len = 0 then 1 else len)) v

/-- Embeds `THREE.Vector3.lerpVectors(a, b, t)`: componentwise `a + (b - a) * t`. -/
def lerpVectors (a b : Vec3) (t : ℚ) : Vec3 :=
  ⟨a.x + (b.x - a.x) * t, a.y + (b.y - a.y) * t, a.z + (b.z - a.z) * t⟩

/-- Embeds `THREE.MathUtils.lerp(a, b, t) = a + (b - a) * t`. -/
def lerpQ (a b t : ℚ) : ℚ := a + (b - a) * t

/-- Embeds `THREE.MathUtils.clamp(value, min, max) = Math.max(min, Math.min(max, value))`. -/
def mathClamp (value lo hi : ℚ) : ℚ := max lo (min hi value)

/- Configuration constants from the CONFIG object in src/main.js. -/

def focusDistance : ℚ := 35
def homeDistance : ℚ := 255
def autoMoveSpeed : ℚ := 3 / 100
def flightAltitude : ℚ := 300
def fadeStart : ℚ := 2600
def fadeEnd : ℚ := 3300
def starSizeMultiplier : ℚ := 1 / 10
def starBaseSize : ℚ := 250
def materialOpacity : ℚ := 1 / 2
def doubleTapDelay : ℚ := 300
def colorEmissive : ℕ := 0x220022
def colorHighlight : ℕ := 0xffd700

/-- The per-frame fade factor of src/main.js line 698:
`THREE.MathUtils.clamp((dist - CONFIG.fadeStart) / (CONFIG.fadeEnd - CONFIG.fadeStart), 0, 1)`. -/
def fadeBlend (dist : ℚ) : ℚ :=
  mathClamp ((dist - fadeStart) / (fadeEnd - fadeStart)) 0 1

/-- The ease-in-ease-out remap of src/main.js line 666: `t * t * (3 - 2 * t)`. -/
def smoothstep (t : ℚ) : ℚ := t * t * (3 - 2 * t)

/-- One component of the quadratic Bezier evaluation of src/main.js
lines 674-676: `(1 - s)^2 * p0 + 2 * (1 - s) * s * p1 + s^2 * p2`. -/
def bezierComp (s p0 p1 p2 : ℚ) : ℚ :=
  (1 - s) ^ 2 * p0 + 2 * (1 - s) * s * p1 + s ^ 2 * p2

/-- The camera position evaluated on the Bezier arc, componentwise as the
code writes it. -/
def bezierPoint (s : ℚ) (p0 p1 p2 : Vec3) : Vec3 :=
  ⟨bezierComp s p0.x p1.x p2.x, bezierComp s p0.y p1.y p2.y, bezierComp s p0.z p1.z p2.z⟩

/-- Progress after one frame: src/main.js lines 656-661.
`moveProgress += CONFIG.autoMoveSpeed * delta * 60; if (moveProgress >= 1) moveProgress = 1`. -/
def nextProgress (delta p : ℚ) : ℚ :=
  if 1 ≤ p + autoMoveSpeed * delta * 60 then 1 else p + autoMoveSpeed * delta * 60

/-- The camera-flight globals of src/main.js lines 177-183. -/
structure FlightState where
  isAutoMoving : Bool
  moveProgress : ℚ
  moveStartPos : Vec3
  moveEndPos : Vec3
  moveControlPos : Vec3
  moveStartTarget : Vec3
  moveEndTarget : Vec3
deriving DecidableEq, Repr

/-- The live camera pose (camera.position and controls.target). -/
structure CamState where
  position : Vec3
  target : Vec3
deriving DecidableEq, Repr

/-- The `if (isAutoMoving)` block of animate (src/main.js lines 653-680):
increment progress (clamping at 1 and deactivating), compute the
smoothstep factor, move the camera along the quadratic Bezier, and lerp
the look-at target. -/
def advanceFlight (delta : ℚ) (fs : FlightState) (cam : CamState) : FlightState × CamState :=
  if fs.isAutoMoving = true then
    let p := nextProgress delta fs.moveProgress
    let active : Bool := if 1 ≤ fs.moveProgress + autoMoveSpeed * delta * 60 then false else true
    let s := smoothstep p
    ({ fs with moveProgress := p, isAutoMoving := active },
     { position := bezierPoint s fs.moveStartPos fs.moveControlPos fs.moveEndPos,
       target := lerpVectors fs.moveStartTarget fs.moveEndTarget s })
  else (fs, cam)

/- Spec-side definitions, written from the words of the specification
(section 4.4) for refinement comparison with the code-side evaluation. -/

/-- Spec wording: smoothstep written as the polynomial `3p^2 - 2p^3`. -/
def specSmoothstep (p : ℚ) : ℚ := 3 * p ^ 2 - 2 * p ^ 3

/-- Spec wording: the quadratic Bezier `(1-s)^2 * start + 2(1-s)s * control + s^2 * end`,
written vectorially. -/
def specBezier (s : ℚ) (p0 p1 p2 : Vec3) : Vec3 :=
  Vec3.add (Vec3.add (Vec3.smul ((1 - s) ^ 2) p0) (Vec3.smul (2 * (1 - s) * s) p1))
    (Vec3.smul (s ^ 2) p2)

/-- Spec wording: plain linear interpolation `(1-t) * a + t * b`. -/
def specLerp (a b : Vec3) (t : ℚ) : Vec3 :=
  Vec3.add (Vec3.smul (1 - t) a) (Vec3.smul t b)

/-- The control-point computation of handleFaceClick (src/main.js lines
383-384): the midpoint of start and end positions, normalized, then
scaled by `CONFIG.flightAltitude`.  `len` is the Euclidean length of the
midpoint vector. -/
def handleFaceClickControl (startPos endPos : Vec3) (len : ℚ) : Vec3 :=
  Vec3.smul flightAltitude (v3normalizeW (Vec3.smul (1 / 2) (Vec3.add startPos endPos)) len)

/-- World position of a face mesh under the model root: the root sits at
the scene origin and the code only ever mutates its uniform scale, so
`getWorldPosition` yields the local offset of the face scaled by the
current scalar scale of the root. -/
def faceWorldPos (scale : ℚ) (faceLocal : Vec3) : Vec3 := Vec3.smul scale faceLocal

/-- The mutable state read and written by handleFaceClick: the
uniform scale of the model root and the live camera pose. -/
structure HFCState where
  modelScale : ℚ
  camPos : Vec3
  camTarget : Vec3
deriving DecidableEq, Repr

/-- handleFaceClick (src/main.js lines 362-394), step by step:
set the root scale to 1 (updating world matrices), record the camera
pose as the flight start, sample the world position of the face at the
normalized scale, build the end pose along the outward normal at
`focusDistance`, build the arc control point, restore the recorded
scale, and start the flight with progress 0.  `lenFace` and `lenMid` are
the Euclidean lengths consumed by the two `normalize()` calls. -/
def handleFaceClick (st : HFCState) (faceLocal : Vec3) (lenFace lenMid : ℚ) :
    HFCState × FlightState :=
  let currentScale := st.modelScale
  let st1 : HFCState := { st with modelScale := 1 }
  let startPos := st1.camPos
  let startTarget := st1.camTarget
  let faceCenter := faceWorldPos st1.modelScale faceLocal
  let faceNormal := v3normalizeW faceCenter lenFace
  let endTarget := faceCenter
  let endPos := Vec3.add faceCenter (Vec3.smul focusDistance faceNormal)
  let ctrl := handleFaceClickControl startPos endPos lenMid
  let st2 : HFCState := { st1 with modelScale := currentScale }
  (st2,
   { isAutoMoving := true, moveProgress := 0,
     moveStartPos := startPos, moveEndPos := endPos, moveControlPos := ctrl,
     moveStartTarget := startTarget, moveEndTarget := endTarget })

/-- The home pose constants (src/main.js lines 186-187). -/
def homeTarget : Vec3 := ⟨0, 0, 0⟩

def homeCameraPos : Vec3 := ⟨0, 0, homeDistance⟩

/-- The flight set up by resetEngram (src/main.js lines 441-453): start
at the current camera pose, end at the home pose, control point the
renormalized midpoint scaled by `homeDistance + 100`. -/
def resetFlight (cam : CamState) (lenMid : ℚ) : FlightState :=
  { isAutoMoving := true, moveProgress := 0,
    moveStartPos := cam.position, moveEndPos := homeCameraPos,
    moveControlPos :=
      Vec3.smul (homeDistance + 100)
        (v3normalizeW (Vec3.smul (1 / 2) (Vec3.add cam.position homeCameraPos)) lenMid),
    moveStartTarget := cam.target, moveEndTarget := homeTarget }

/-- The whole-system state relevant to flight ownership: the single
flight slot (the `move*` globals plus the two flags), the camera pose,
and the model scale. -/
structure World where
  flight : FlightState
  cam : CamState
  modelScale : ℚ
deriving DecidableEq, Repr

/-- Starting a face flight in the world: handleFaceClick writes every
flight global and resets progress, replacing whatever flight was
recorded before. -/
def clickFace (w : World) (faceLocal : Vec3) (lenFace lenMid : ℚ) : World :=
  let r := handleFaceClick ⟨w.modelScale, w.cam.position, w.cam.target⟩ faceLocal lenFace lenMid
  { flight := r.2, cam := w.cam, modelScale := r.1.modelScale }

/-- Starting the home flight in the world (resetEngram). -/
def resetEngramW (w : World) (lenMid : ℚ) : World :=
  { w with flight := resetFlight w.cam lenMid }

/-- One animation-loop frame restricted to the flight block: advance the
flight and write the camera pose. -/
def frameStep (delta : ℚ) (w : World) : World :=
  let r := advanceFlight delta w.flight w.cam
  { w with flight := r.1, cam := r.2 }

/-- A run of animation frames with the given per-frame delta times. -/
def runFrames (deltas : List ℚ) (w : World) : World :=
  deltas.foldl (fun acc d => frameStep d acc) w

/- Hover highlighting (handleHover, src/main.js lines 524-541). -/

/-- The hover-relevant mutable state: the INTERSECTED reference (by face
id) and the current material emissive color of each face. -/
structure HoverState where
  intersected : Option ℕ
  em : ℕ → ℕ

/-- Revert the currently hovered face (if any) to its recorded
`userData.originalEmissive`. -/
def revertIntersected (original : ℕ → ℕ) (s : HoverState) : ℕ → ℕ :=
  fun f => if s.intersected = some f then original f else s.em f

/-- handleHover: skipped entirely while dragging; on a hit of a new face
revert the old hover target and highlight the new one; on no hit revert
the old hover target and clear INTERSECTED.  `pick` is the nearest
clickable face under the pointer ray, if any. -/
def handleHover (isDragging : Bool) (original : ℕ → ℕ) (pick : Option ℕ)
    (s : HoverState) : HoverState :=
  if isDragging = true then s
  else
    match pick with
    | some hit =>
      if s.intersected = some hit then s
      else
        { intersected := some hit,
          em := fun f => if f = hit then colorHighlight else revertIntersected original s f }
    | none => { intersected := none, em := revertIntersected original s }

/-- Every face other than the current hover target shows its recorded
base emissive. -/
def hoverInv (original : ℕ → ℕ) (s : HoverState) : Prop :=
  ∀ f, s.intersected ≠ some f → s.em f = original f

/- The dynamic model/star fading block of animate (src/main.js lines
693-735). -/

/-- The model-dependent state touched by the fade block: the uniform
scale of the root and, per face, the core flag and material opacity. -/
structure ModelData where
  scale : ℚ
  isCore : ℕ → Bool
  opacity : ℕ → ℚ

/-- The scene state the fade block reads and writes.  `model` is `none`
until the GLTF loader callback populates modelRoot and its center
anchor. -/
structure FadeScene where
  model : Option ModelData
  starVisible : Bool
  starPos : Vec3
  starScale : ℚ
  starOpacity : ℚ

/-- The `if (modelRoot && modelCenterAnchor)` block of animate: compute
the blend factor from the camera-to-anchor distance, shrink the model
(floored at 0.0001), fade non-core materials, and update the star
marker.  `dist` is the Euclidean camera-to-anchor distance and `pulse`
is the wall-clock sine factor `0.85 + 0.15 * sin(now * starPulseSpeed)`,
both supplied as oracle inputs; `anchorWorld` is the world position of
the anchor.  When the model is absent the whole block is skipped. -/
def fadeStep (dist pulse : ℚ) (anchorWorld : Vec3) (s : FadeScene) : FadeScene :=
  match s.model with
  | none => s
  | some md =>
    let t := fadeBlend dist
    let md2 : ModelData :=
      { md with
        scale := max (1 - t) (1 / 10000),
        opacity := fun f => if md.isCore f then 1 else materialOpacity * (1 - t) }
    if 0 < t then
      let visualSize := lerpQ 0 starBaseSize t * (1 + dist / 1000 * starSizeMultiplier)
      { model := some md2, starVisible := true, starPos := anchorWorld,
        starScale := visualSize, starOpacity := t * pulse }
    else
      { s with model := some md2, starVisible := false }

/-- A run of fade frames with per-frame (distance, pulse, anchor) inputs. -/
def runFadeFrames (inputs : List (ℚ × ℚ × Vec3)) (s : FadeScene) : FadeScene :=
  inputs.foldl (fun acc i => fadeStep i.1 i.2.1 i.2.2 acc) s

/- Pointer gesture machine (src/main.js lines 473-515). -/

/-- The pointer-event globals of src/main.js lines 345-348. -/
structure PointerState where
  isPointerDown : Bool
  isDragging : Bool
  startX : ℚ
  startY : ℚ
  lastPointerUpTime : ℚ
deriving DecidableEq, Repr

/-- What the two raycasts of the pointerup handler would resolve for the
current pointer position: whether the star sprite is visible, whether
the pointer ray intersects it, and the nearest clickable face under the
ray, if any. -/
structure PickEnv where
  starVisible : Bool
  rayHitsStar : Bool
  faceHit : Option ℕ
deriving DecidableEq, Repr

/-- The externally observable outcome of one pointerup: nothing, a
confirmed reset (resetEngram), or a confirmed face pick
(handleFaceClick on the given face). -/
inductive UpAction where
  | nothing : UpAction
  | reset : UpAction
  | facePick : ℕ → UpAction
deriving DecidableEq, Repr

/-- The pointerdown listener: record the press origin, clear the drag
flag, mark the pointer held. -/
def pointerdown (x y : ℚ) (s : PointerState) : PointerState :=
  { s with isPointerDown := true, isDragging := false, startX := x, startY := y }

/-- The pointermove listener: while the pointer is held, a move of more
than 5 pixels from the press origin on either axis sets the drag flag. -/
def pointermove (x y : ℚ) (s : PointerState) : PointerState :=
  if s.isPointerDown = true then
    if 5 < |x - s.startX| ∨ 5 < |y - s.startY| then { s with isDragging := true } else s
  else s

/-- Apply a list of pointermove events in order. -/
def applyMoves (moves : List (ℚ × ℚ)) (s : PointerState) : PointerState :=
  moves.foldl (fun st m => pointermove m.1 m.2 st) s

/-- tryStarDoubleClick (src/main.js lines 457-468): returns false
immediately when the star sprite is invisible; otherwise it succeeds
(and resets) exactly when the pointer ray intersects the sprite. -/
def tryStarDoubleClick (env : PickEnv) : Bool :=
  if env.starVisible = false then false
  else env.rayHitsStar

/-- The pointerup listener (src/main.js lines 494-515): a drag release
clears the drag flag and does nothing else (it does not even record the
release time); otherwise the release time is recorded, a release within
the double-tap window of the previous recorded release first offers the
event to tryStarDoubleClick, and only if that declines does the face
raycast run. -/
def pointerup (now : ℚ) (env : PickEnv) (s : PointerState) : PointerState × UpAction :=
  let s1 : PointerState := { s with isPointerDown := false }
  if s1.isDragging = true then ({ s1 with isDragging := false }, UpAction.nothing)
  else
    let s2 : PointerState := { s1 with lastPointerUpTime := now }
    if now - s1.lastPointerUpTime < doubleTapDelay ∧ tryStarDoubleClick env = true then
      (s2, UpAction.reset)
    else
      match env.faceHit with
      | some id => (s2, UpAction.facePick id)
      | none => (s2, UpAction.nothing)

/- Concrete states used to exercise the theorems on closed inputs. -/

/-- A concrete active flight one frame short of completion. -/
def fsW : FlightState :=
  { isAutoMoving := true, moveProgress := 0,
    moveStartPos := ⟨0, 0, 255⟩, moveEndPos := ⟨1, 2, 3⟩, moveControlPos := ⟨0, 0, 300⟩,
    moveStartTarget := ⟨0, 0, 0⟩, moveEndTarget := ⟨4, 5, 6⟩ }

/-- A concrete camera pose at the home position. -/
def camW : CamState := { position := ⟨0, 0, 255⟩, target := ⟨0, 0, 0⟩ }

/- Helper lemmas (shared). -/

theorem vec3_ext (a b : Vec3) (hx : a.x = b.x) (hy : a.y = b.y) (hz : a.z = b.z) : a = b := by
  cases a; cases b; simp_all

theorem advance_active_progress (fs : FlightState) (cam : CamState) (delta : ℚ)
    (h : fs.isAutoMoving = true) :
    (advanceFlight delta fs cam).1.moveProgress = nextProgress delta fs.moveProgress := by
  simp [advanceFlight, h]

theorem advance_active_position (fs : FlightState) (cam : CamState) (delta : ℚ)
    (h : fs.isAutoMoving = true) :
    (advanceFlight delta fs cam).2.position =
      bezierPoint (smoothstep (nextProgress delta fs.moveProgress))
        fs.moveStartPos fs.moveControlPos fs.moveEndPos := by
  simp [advanceFlight, h]

theorem advance_active_target (fs : FlightState) (cam : CamState) (delta : ℚ)
    (h : fs.isAutoMoving = true) :
    (advanceFlight delta fs cam).2.target =
      lerpVectors fs.moveStartTarget fs.moveEndTarget
        (smoothstep (nextProgress delta fs.moveProgress)) := by
  simp [advanceFlight, h]

theorem bezierPoint_smooth_zero (a b c : Vec3) : bezierPoint (smoothstep 0) a b c = a := by
  apply vec3_ext <;> simp [bezierPoint, bezierComp, smoothstep]

theorem bezierPoint_smooth_one (a b c : Vec3) : bezierPoint (smoothstep 1) a b c = c := by
  apply vec3_ext <;> simp [bezierPoint, bezierComp, smoothstep] <;> norm_num

theorem bezierPoint_eq_spec (s : ℚ) (a b c : Vec3) :
    bezierPoint s a b c = specBezier s a b c := by
  apply vec3_ext <;> simp [bezierPoint, bezierComp, specBezier, Vec3.add, Vec3.smul]

theorem lerpVectors_eq_spec (a b : Vec3) (t : ℚ) :
    lerpVectors a b t = specLerp a b t := by
  apply vec3_ext <;> simp [lerpVectors, specLerp, Vec3.add, Vec3.smul] <;> ring

/- Claim theorems. -/

/-- C1: for every frame with the model present, the blend factor is
clamp((d - fadeStart) / (fadeEnd - fadeStart), 0, 1); it is 0 for every
d ≤ fadeStart, 1 for every d ≥ fadeEnd, equals the linear ramp in
between, and is monotonically non-decreasing in d. -/
theorem fade_blend_spec (d d2 : ℚ) (hdd : d ≤ d2) :
    fadeBlend d = max 0 (min 1 ((d - fadeStart) / (fadeEnd - fadeStart))) ∧
    (d ≤ fadeStart → fadeBlend d = 0) ∧
    (fadeEnd ≤ d → fadeBlend d = 1) ∧
    (fadeStart ≤ d → d ≤ fadeEnd → fadeBlend d = (d - fadeStart) / (fadeEnd - fadeStart)) ∧
    fadeBlend d ≤ fadeBlend d2 := by
  have hpos : (0 : ℚ) < fadeEnd - fadeStart := by norm_num [fadeStart, fadeEnd]
  refine ⟨rfl, ?_, ?_, ?_, ?_⟩
  · intro h
    have hq : (d - fadeStart) / (fadeEnd - fadeStart) ≤ 0 :=
      div_nonpos_iff.mpr (Or.inr ⟨by linarith, le_of_lt hpos⟩)
    unfold fadeBlend mathClamp
    rw [min_eq_right (le_trans hq (by norm_num)), max_eq_left hq]
  · intro h
    have hq : 1 ≤ (d - fadeStart) / (fadeEnd - fadeStart) :=
      (one_le_div hpos).mpr (by linarith)
    unfold fadeBlend mathClamp
    rw [min_eq_left hq, max_eq_right (by norm_num : (0 : ℚ) ≤ 1)]
  · intro h1 h2
    have hq0 : 0 ≤ (d - fadeStart) / (fadeEnd - fadeStart) :=
      div_nonneg (by linarith) (le_of_lt hpos)
    have hq1 : (d - fadeStart) / (fadeEnd - fadeStart) ≤ 1 :=
      (div_le_one hpos).mpr (by linarith)
    unfold fadeBlend mathClamp
    rw [min_eq_right hq1, max_eq_right hq0]
  · have hmono :
        (d - fadeStart) / (fadeEnd - fadeStart) ≤ (d2 - fadeStart) / (fadeEnd - fadeStart) :=
      (div_le_div_iff_of_pos_right hpos).mpr (by linarith)
    exact max_le_max le_rfl (min_le_min le_rfl hmono)

theorem fade_blend_spec_witness :
    fadeBlend 2500 = 0 ∧ fadeBlend 3400 = 1 ∧
    fadeBlend 3000 = (3000 - fadeStart) / (fadeEnd - fadeStart) ∧
    fadeBlend 3000 ≤ fadeBlend 3100 :=
  ⟨(fade_blend_spec 2500 2600 (by norm_num)).2.1 (by norm_num [fadeStart]),
   (fade_blend_spec 3400 3500 (by norm_num)).2.2.1 (by norm_num [fadeEnd]),
   (fade_blend_spec 3000 3100 (by norm_num)).2.2.2.1 (by norm_num [fadeStart])
     (by norm_num [fadeEnd]),
   (fade_blend_spec 3000 3100 (by norm_num)).2.2.2.2⟩

/-- C2: advancing an active flight at progress 0 with zero elapsed time
leaves the camera at the recorded start position; when the incremented
progress reaches or exceeds 1 it is clamped to exactly 1, the flight is
deactivated, and the camera lands exactly on the recorded end position;
and progress is non-decreasing under the per-frame advance. -/
theorem flight_advance_endpoints (fs : FlightState) (cam : CamState) (delta : ℚ) :
    (fs.isAutoMoving = true → fs.moveProgress = 0 →
      (advanceFlight 0 fs cam).2.position = fs.moveStartPos) ∧
    (fs.isAutoMoving = true → 1 ≤ fs.moveProgress + autoMoveSpeed * delta * 60 →
      (advanceFlight delta fs cam).1.moveProgress = 1 ∧
      (advanceFlight delta fs cam).1.isAutoMoving = false ∧
      (advanceFlight delta fs cam).2.position = fs.moveEndPos) ∧
    (0 ≤ delta → fs.moveProgress ≤ 1 →
      fs.moveProgress ≤ (advanceFlight delta fs cam).1.moveProgress) := by
  refine ⟨?_, ?_, ?_⟩
  · intro h hp
    rw [advance_active_position fs cam 0 h]
    have hnp : nextProgress 0 fs.moveProgress = 0 := by
      rw [hp]; unfold nextProgress autoMoveSpeed; norm_num
    rw [hnp, bezierPoint_smooth_zero]
  · intro h h1
    have hnp : nextProgress delta fs.moveProgress = 1 := by
      unfold nextProgress; rw [if_pos h1]
    refine ⟨?_, ?_, ?_⟩
    · rw [advance_active_progress fs cam delta h, hnp]
    · simp [advanceFlight, h, if_pos h1]
    · rw [advance_active_position fs cam delta h, hnp, bezierPoint_smooth_one]
  · intro hδ hp1
    by_cases h : fs.isAutoMoving = true
    · rw [advance_active_progress fs cam delta h]
      have hstep : 0 ≤ autoMoveSpeed * delta * 60 := by
        have : (0 : ℚ) ≤ autoMoveSpeed := by norm_num [autoMoveSpeed]
        nlinarith
      unfold nextProgress
      by_cases hc : 1 ≤ fs.moveProgress + autoMoveSpeed * delta * 60
      · rw [if_pos hc]; exact hp1
      · rw [if_neg hc]; linarith
    · simp [advanceFlight, h]

theorem flight_advance_endpoints_witness :
    (advanceFlight 1 fsW camW).1.moveProgress = 1 ∧
    (advanceFlight 1 fsW camW).1.isAutoMoving = false ∧
    (advanceFlight 1 fsW camW).2.position = fsW.moveEndPos :=
  (flight_advance_endpoints fsW camW 1).2.1 rfl (by norm_num [fsW, autoMoveSpeed])

/-- C3 counterexample: the control point computed by handleFaceClick is not the
midpoint of start and end.  With start (0,0,255) and end (0,0,35) the
midpoint is (0,0,145) (its Euclidean length is 145, as the first
conjunct certifies), but the code renormalizes it to length
flightAltitude, yielding (0,0,300). -/
theorem control_point_not_midpoint :
    (145 : ℚ) * 145 = Vec3.normSq (Vec3.smul (1 / 2) (Vec3.add ⟨0, 0, 255⟩ ⟨0, 0, 35⟩)) ∧
    handleFaceClickControl ⟨0, 0, 255⟩ ⟨0, 0, 35⟩ 145 ≠
      Vec3.smul (1 / 2) (Vec3.add ⟨0, 0, 255⟩ ⟨0, 0, 35⟩) := by
  constructor
  · norm_num [Vec3.normSq, Vec3.smul, Vec3.add]
  · intro hEq
    have hz := congrArg Vec3.z hEq
    norm_num [handleFaceClickControl, v3normalizeW, Vec3.smul, Vec3.add, flightAltitude] at hz

/-- C3 amended: on every frame of an active flight the camera position
is the quadratic Bezier (1-s)^2 start + 2(1-s)s control + s^2 end at
the eased parameter s = smoothstep(p) = 3p^2 - 2p^3 = p*p*(3-2p), the
look-at target is the plain linear interpolation between start and end
targets, and the control point is never defaulted to the midpoint: the
flight initiators always supply the midpoint of start and end
renormalized, i.e. scaled by flightAltitude / ‖midpoint‖. -/
theorem flight_eval_amended (fs : FlightState) (cam : CamState) (delta : ℚ)
    (h : fs.isAutoMoving = true) :
    (advanceFlight delta fs cam).2.position =
      specBezier (specSmoothstep (nextProgress delta fs.moveProgress))
        fs.moveStartPos fs.moveControlPos fs.moveEndPos ∧
    (advanceFlight delta fs cam).2.target =
      specLerp fs.moveStartTarget fs.moveEndTarget
        (specSmoothstep (nextProgress delta fs.moveProgress)) ∧
    (∀ p : ℚ, smoothstep p = specSmoothstep p) ∧
    (∀ (s e : Vec3) (len : ℚ), len ≠ 0 →
      handleFaceClickControl s e len =
        Vec3.smul (flightAltitude / len) (Vec3.smul (1 / 2) (Vec3.add s e))) := by
  have hsm : ∀ p : ℚ, smoothstep p = specSmoothstep p := by
    intro p; unfold smoothstep specSmoothstep; ring
  refine ⟨?_, ?_, hsm, ?_⟩
  · rw [advance_active_position fs cam delta h, bezierPoint_eq_spec, hsm]
  · rw [advance_active_target fs cam delta h, lerpVectors_eq_spec, hsm]
  · intro s e len hlen
    unfold handleFaceClickControl v3normalizeW
    rw [if_neg hlen]
    apply vec3_ext <;> simp [Vec3.smul, Vec3.add] <;> ring

theorem flight_eval_amended_witness :
    (advanceFlight 1 fsW camW).2.position =
      specBezier (specSmoothstep (nextProgress 1 fsW.moveProgress))
        fsW.moveStartPos fsW.moveControlPos fsW.moveEndPos :=
  (flight_eval_amended fsW camW 1 rfl).1

/- Pointer-machine helper lemmas. -/

theorem pointermove_fields (x y : ℚ) (s : PointerState) :
    (pointermove x y s).isPointerDown = s.isPointerDown ∧
    (pointermove x y s).startX = s.startX ∧
    (pointermove x y s).startY = s.startY ∧
    (pointermove x y s).lastPointerUpTime = s.lastPointerUpTime := by
  unfold pointermove; split_ifs <;> simp

theorem pointermove_drag_mono (x y : ℚ) (s : PointerState) (h : s.isDragging = true) :
    (pointermove x y s).isDragging = true := by
  unfold pointermove; split_ifs <;> simp [h]

theorem pointermove_triggers (x y : ℚ) (s : PointerState) (hd : s.isPointerDown = true)
    (hth : 5 < |x - s.startX| ∨ 5 < |y - s.startY|) :
    (pointermove x y s).isDragging = true := by
  unfold pointermove; rw [if_pos hd, if_pos hth]

theorem applyMoves_drag_mono (moves : List (ℚ × ℚ)) (s : PointerState)
    (h : s.isDragging = true) : (applyMoves moves s).isDragging = true := by
  induction moves generalizing s with
  | nil => exact h
  | cons m ms ih =>
    rw [show applyMoves (m :: ms) s = applyMoves ms (pointermove m.1 m.2 s) from rfl]
    exact ih _ (pointermove_drag_mono m.1 m.2 s h)

theorem applyMoves_triggers (moves : List (ℚ × ℚ)) (s : PointerState)
    (hd : s.isPointerDown = true)
    (hmove : ∃ m ∈ moves, 5 < |m.1 - s.startX| ∨ 5 < |m.2 - s.startY|) :
    (applyMoves moves s).isDragging = true := by
  induction moves generalizing s with
  | nil => rcases hmove with ⟨m, hm, _⟩; simp at hm
  | cons m ms ih =>
    rw [show applyMoves (m :: ms) s = applyMoves ms (pointermove m.1 m.2 s) from rfl]
    rcases hmove with ⟨m0, hm0, hth⟩
    rcases List.mem_cons.mp hm0 with he | hms
    · subst he
      exact applyMoves_drag_mono ms _ (pointermove_triggers m0.1 m0.2 s hd hth)
    · apply ih
      · rw [(pointermove_fields m.1 m.2 s).1]; exact hd
      · refine ⟨m0, hms, ?_⟩
        rw [(pointermove_fields m.1 m.2 s).2.1, (pointermove_fields m.1 m.2 s).2.2.1]
        exact hth

theorem applyMoves_small : ∀ (moves : List (ℚ × ℚ)) (s : PointerState),
    (∀ m ∈ moves, |m.1 - s.startX| ≤ 5 ∧ |m.2 - s.startY| ≤ 5) → applyMoves moves s = s := by
  intro moves
  induction moves with
  | nil => intro s _; rfl
  | cons m ms ih =>
    intro s hsmall
    have hm := hsmall m (List.mem_cons_self m ms)
    have hstep : pointermove m.1 m.2 s = s := by
      unfold pointermove
      split_ifs with h1 h2
      · exfalso; rcases h2 with h | h
        · linarith [hm.1]
        · linarith [hm.2]
      · rfl
      · rfl
    rw [show applyMoves (m :: ms) s = applyMoves ms (pointermove m.1 m.2 s) from rfl, hstep]
    exact ih s (fun m2 hm2 => hsmall m2 (List.mem_cons_of_mem m hm2))

theorem pointerup_nodrag_state (now : ℚ) (env : PickEnv) (s : PointerState)
    (h : s.isDragging = false) :
    (pointerup now env s).1.lastPointerUpTime = now ∧
    (pointerup now env s).1.isDragging = false := by
  unfold pointerup
  have hc : ¬(({ s with isPointerDown := false } : PointerState).isDragging = true) := by
    simp [h]
  rw [if_neg hc]
  split_ifs with hd
  · exact ⟨rfl, by simp [h]⟩
  · cases hf : env.faceHit with
    | some id => simp [hf, h]
    | none => simp [hf, h]

theorem pointerup_nodrag_action (now : ℚ) (env : PickEnv) (s : PointerState)
    (h : s.isDragging = false) (hdub : now - s.lastPointerUpTime < doubleTapDelay)
    (hstar : tryStarDoubleClick env = true) :
    (pointerup now env s).2 = UpAction.reset := by
  unfold pointerup
  have hc : ¬(({ s with isPointerDown := false } : PointerState).isDragging = true) := by
    simp [h]
  rw [if_neg hc, if_pos ⟨hdub, hstar⟩]

/-- C4: a press-move-release gesture containing a move more than 5
pixels from the press origin on either axis never produces a face pick
(nor any other action) at release, whatever the pick environment under
the pointer resolves to. -/
theorem drag_never_picks (s0 : PointerState) (x0 y0 : ℚ) (moves : List (ℚ × ℚ))
    (t : ℚ) (env : PickEnv)
    (hmove : ∃ m ∈ moves, 5 < |m.1 - x0| ∨ 5 < |m.2 - y0|) :
    (pointerup t env (applyMoves moves (pointerdown x0 y0 s0))).2 = UpAction.nothing := by
  have hdrag : (applyMoves moves (pointerdown x0 y0 s0)).isDragging = true := by
    apply applyMoves_triggers _ _ rfl
    exact hmove
  unfold pointerup
  rw [if_pos (by simpa using hdrag)]

theorem drag_never_picks_witness :
    (pointerup 1000 ⟨true, true, some 3⟩
        (applyMoves [(110, 100)] (pointerdown 100 100 ⟨false, false, 0, 0, 0⟩))).2 =
      UpAction.nothing :=
  drag_never_picks ⟨false, false, 0, 0, 0⟩ 100 100 [(110, 100)] 1000 ⟨true, true, some 3⟩
    ⟨(110, 100), by simp, Or.inl (by norm_num)⟩

/-- C5: the flight slot is a single record, so at most one flight is
ever active; starting a second flight (face pick or reset) fully
overwrites the first, resets progress to 0, and every subsequent frame
of the animation loop evolves exactly as if only the second flight had
ever been started. -/
theorem single_flight_last_wins (w : World) (f1 f2 : Vec3) (lf1 lm1 lf2 lm2 lmr : ℚ)
    (deltas : List ℚ) :
    clickFace (clickFace w f1 lf1 lm1) f2 lf2 lm2 = clickFace w f2 lf2 lm2 ∧
    resetEngramW (clickFace w f1 lf1 lm1) lmr = resetEngramW w lmr ∧
    (clickFace w f2 lf2 lm2).flight.moveProgress = 0 ∧
    (clickFace w f2 lf2 lm2).flight.isAutoMoving = true ∧
    runFrames deltas (clickFace (clickFace w f1 lf1 lm1) f2 lf2 lm2) =
      runFrames deltas (clickFace w f2 lf2 lm2) := by
  exact ⟨rfl, rfl, rfl, rfl, rfl⟩

/-- C6: the hover step preserves the invariant that every face other
than the current hover target shows its recorded original emissive, and
when the pick resolves nothing the hover target is cleared (so every
face shows its base state). -/
theorem hover_single_highlight (isDragging : Bool) (original : ℕ → ℕ) (pick : Option ℕ)
    (s : HoverState) (hinv : hoverInv original s) :
    hoverInv original (handleHover isDragging original pick s) ∧
    (isDragging = false → pick = none →
      (handleHover isDragging original pick s).intersected = none) := by
  constructor
  · unfold handleHover
    by_cases hd : isDragging = true
    · rw [if_pos hd]; exact hinv
    · rw [if_neg hd]
      cases pick with
      | none =>
        show hoverInv original { intersected := none, em := revertIntersected original s }
        intro f hf
        show revertIntersected original s f = original f
        unfold revertIntersected
        by_cases hi : s.intersected = some f
        · rw [if_pos hi]
        · rw [if_neg hi]; exact hinv f hi
      | some hit =>
        show hoverInv original
          (if s.intersected = some hit then s
           else { intersected := some hit,
                  em := fun f => if f = hit then colorHighlight
                    else revertIntersected original s f })
        by_cases hsame : s.intersected = some hit
        · rw [if_pos hsame]; exact hinv
        · rw [if_neg hsame]
          intro f hf
          have hne : f ≠ hit := fun he => hf (by rw [he])
          show (if f = hit then colorHighlight else revertIntersected original s f) = original f
          rw [if_neg hne]
          unfold revertIntersected
          by_cases hi : s.intersected = some f
          · rw [if_pos hi]
          · rw [if_neg hi]; exact hinv f hi
  · intro hd hp
    subst hp
    unfold handleHover
    rw [hd]
    simp

theorem hover_single_highlight_witness :
    hoverInv (fun _ => colorEmissive)
      (handleHover false (fun _ => colorEmissive) (some 2)
        ⟨some 1, fun _ => colorEmissive⟩) :=
  (hover_single_highlight false (fun _ => colorEmissive) (some 2)
    ⟨some 1, fun _ => colorEmissive⟩ (fun _ _ => rfl)).1

/-- C7: while the model and its center anchor are absent (loader not
yet finished), the fade block of the frame is a no-op on the scene
state, for one frame and for any run of frames. -/
theorem frame_noop_before_load (s : FadeScene) (h : s.model = none) :
    (∀ (d pulse : ℚ) (anchor : Vec3), fadeStep d pulse anchor s = s) ∧
    (∀ inputs : List (ℚ × ℚ × Vec3), runFadeFrames inputs s = s) := by
  have hstep : ∀ (d pulse : ℚ) (anchor : Vec3), fadeStep d pulse anchor s = s := by
    intro d pulse anchor
    unfold fadeStep
    rw [h]
  refine ⟨hstep, ?_⟩
  intro inputs
  induction inputs with
  | nil => rfl
  | cons i is ih =>
    rw [show runFadeFrames (i :: is) s = runFadeFrames is (fadeStep i.1 i.2.1 i.2.2 s) from rfl]
    rw [hstep i.1 i.2.1 i.2.2]
    exact ih

theorem frame_noop_before_load_witness :
    fadeStep 100 1 ⟨0, 0, 0⟩ ⟨none, false, ⟨0, 0, 0⟩, 0, 0⟩ =
      (⟨none, false, ⟨0, 0, 0⟩, 0, 0⟩ : FadeScene) :=
  (frame_noop_before_load ⟨none, false, ⟨0, 0, 0⟩, 0, 0⟩ rfl).1 100 1 ⟨0, 0, 0⟩

/-- C8: handleFaceClick restores the model root scale to exactly its
prior value (and leaves the camera pose untouched), and its computed
flight plan is identical to the one computed with the model already at
scale 1 — the end pose is independent of the concurrent proximity scale
animation. -/
theorem face_click_scale_restored (st : HFCState) (faceLocal : Vec3) (lenFace lenMid : ℚ) :
    (handleFaceClick st faceLocal lenFace lenMid).1.modelScale = st.modelScale ∧
    (handleFaceClick st faceLocal lenFace lenMid).2 =
      (handleFaceClick { st with modelScale := 1 } faceLocal lenFace lenMid).2 ∧
    (handleFaceClick st faceLocal lenFace lenMid).1.camPos = st.camPos ∧
    (handleFaceClick st faceLocal lenFace lenMid).1.camTarget = st.camTarget :=
  ⟨rfl, rfl, rfl, rfl⟩

/-- C9: a second non-drag release within the double-tap window whose
ray hits the visible glow marker yields exactly the reset action (and
hence zero face picks), and the star double-click check returns false
whenever the marker is invisible. -/
theorem double_tap_star_resets (s : PointerState) (t1 t2 x y : ℚ)
    (env1 env2 : PickEnv) (moves : List (ℚ × ℚ))
    (h1 : s.isDragging = false)
    (hsmall : ∀ m ∈ moves, |m.1 - x| ≤ 5 ∧ |m.2 - y| ≤ 5)
    (hwin : t2 - t1 < doubleTapDelay)
    (hvis : env2.starVisible = true) (hhit : env2.rayHitsStar = true) :
    (pointerup t2 env2
        (applyMoves moves (pointerdown x y (pointerup t1 env1 s).1))).2 = UpAction.reset ∧
    (∀ env : PickEnv, env.starVisible = false → tryStarDoubleClick env = false) := by
  have hs1 := pointerup_nodrag_state t1 env1 s h1
  constructor
  · have hsm : applyMoves moves (pointerdown x y (pointerup t1 env1 s).1) =
        pointerdown x y (pointerup t1 env1 s).1 :=
      applyMoves_small moves _ (fun m hm => hsmall m hm)
    rw [hsm]
    apply pointerup_nodrag_action
    · rfl
    · show t2 - (pointerdown x y (pointerup t1 env1 s).1).lastPointerUpTime < doubleTapDelay
      have hlast : (pointerdown x y (pointerup t1 env1 s).1).lastPointerUpTime =
          (pointerup t1 env1 s).1.lastPointerUpTime := rfl
      rw [hlast, hs1.1]
      exact hwin
    · simp [tryStarDoubleClick, hvis, hhit]
  · intro env he
    unfold tryStarDoubleClick
    rw [if_pos he]

theorem double_tap_star_resets_witness :
    (pointerup 100 ⟨true, true, none⟩
        (applyMoves [] (pointerdown 50 50
          (pointerup 0 ⟨false, false, none⟩ ⟨false, false, 0, 0, -1000⟩).1))).2 =
      UpAction.reset :=
  (double_tap_star_resets ⟨false, false, 0, 0, -1000⟩ 0 100 50 50 ⟨false, false, none⟩
    ⟨true, true, none⟩ [] rfl (by simp) (by norm_num [doubleTapDelay]) rfl rfl).1

/-- C10: a release inside the double-tap window that the star branch
declines (marker invisible or ray misses it) falls through to the
ordinary face raycast, and a clickable face under the pointer yields a
normal confirmed pick. -/
theorem second_tap_fallthrough (s : PointerState) (t : ℚ) (env : PickEnv) (id : ℕ)
    (h1 : s.isDragging = false)
    (_hwin : t - s.lastPointerUpTime < doubleTapDelay)
    (hstar : tryStarDoubleClick env = false)
    (hface : env.faceHit = some id) :
    (pointerup t env s).2 = UpAction.facePick id ∧
    (∀ e : PickEnv, e.starVisible = false ∨ e.rayHitsStar = false →
      tryStarDoubleClick e = false) := by
  constructor
  · unfold pointerup
    have hc : ¬(({ s with isPointerDown := false } : PointerState).isDragging = true) := by
      simp [h1]
    rw [if_neg hc]
    have hcond : ¬(t - ({ s with isPointerDown := false } : PointerState).lastPointerUpTime <
        doubleTapDelay ∧ tryStarDoubleClick env = true) := by
      simp [hstar]
    rw [if_neg hcond, hface]
  · intro e he
    unfold tryStarDoubleClick
    rcases he with h | h
    · rw [if_pos h]
    · split_ifs with hv
      · rfl
      · exact h

theorem second_tap_fallthrough_witness :
    (pointerup 100 ⟨false, true, some 7⟩ ⟨false, false, 0, 0, 0⟩).2 = UpAction.facePick 7 :=
  (second_tap_fallthrough ⟨false, false, 0, 0, 0⟩ 100 ⟨false, true, some 7⟩ 7 rfl
    (by norm_num [doubleTapDelay]) rfl rfl).1

end Portfolio
